import Mathlib

/-!
Shallow embedding of the core routines of the polymarket/Kalshi market
monitor: the probability-change tracker (`main.py`), the spike/volume
anomaly detector (`analysis/spike_detection.py`), the token-bucket rate
limiter and exponential backoff (`utils/rate_limiter.py`) and the JSON
state persistence (`utils/persistence.py`).  Probabilities, volumes,
timestamps and delays are modelled as rationals; Python dicts as
association lists; Python sets as lists with membership semantics.
-/

namespace Monitor

/-- Association-list update: set key `k` to `v`, replacing an existing
binding (models Python dict assignment `d[k] = v`). -/
def setKey (k : String) (v : ℚ) : List (String × ℚ) → List (String × ℚ)
  | [] => [(k, v)]
  | (k₁, v₁) :: rest => if k₁ = k then (k, v) :: rest else (k₁, v₁) :: setKey k v rest

/-- A normalized market snapshot (`models/market_event.py`): unique id,
probability, observation timestamp (minutes), optional volume. -/
structure MarketEvent where
  uid : String
  prob : ℚ
  ts : ℚ
  vol : Option ℚ
deriving DecidableEq

/-- The payload of the `probability_change` alert emitted by
`MarketMonitor.process_market_update` (`main.py` lines 111-121). -/
structure ChangeSignal where
  currentProbability : ℚ
  previousProbability : ℚ
  changePct : ℚ
  direction : String
  directionProb : ℚ
deriving DecidableEq

/-- The mutable state of `MarketMonitor` relevant to change detection:
the `known_market_ids` set and the `last_probability` dict. -/
structure MonState where
  knownIds : List String
  lastProb : List (String × ℚ)
deriving DecidableEq

/-- `MarketMonitor.process_market_update` (`main.py` lines 77-124):
first sight of a market id records a baseline and emits nothing;
a tracked id with a recorded previous probability emits a
`probability_change` signal when `|curr - prev| * 100` meets the
threshold; the stored probability is always updated to `curr`. -/
def processMarketUpdate (threshold : ℚ) (st : MonState) (m : MarketEvent) :
    MonState × Option ChangeSignal :=
  if m.uid ∈ st.knownIds then
    let sig :=
      match st.lastProb.lookup m.uid with
      | none => none
      | some prev =>
        let raw := m.prob - prev
        let changePP := |raw| * 100
        if changePP ≥ threshold then
          some { currentProbability := m.prob
               , previousProbability := prev
               , changePct := changePP
               , direction := if raw > 0 then "YES" else "NO"
               , directionProb := if raw > 0 then m.prob else 1 - m.prob }
        else none
    ({ st with lastProb := setKey m.uid m.prob st.lastProb }, sig)
  else
    ({ knownIds := m.uid :: st.knownIds
     , lastProb := setKey m.uid m.prob st.lastProb }, none)

theorem lookup_setKey (k : String) (v : ℚ) (l : List (String × ℚ)) :
    (setKey k v l).lookup k = some v := by
  induction l with
  | nil => simp [setKey, List.lookup]
  | cons p rest ih =>
    obtain ⟨k₁, v₁⟩ := p
    by_cases h : k₁ = k
    · simp [setKey, h, List.lookup]
    · simp only [setKey, if_neg h, List.lookup]
      have : (k == k₁) = false := by
        simp [beq_iff_eq]
        exact fun hk => h hk.symm
      simp [this, ih]

end Monitor

namespace Monitor

/-- C1: `process_market_update` on an unseen market key emits no signal and
records the snapshot's probability as the baseline; on a tracked key with
recorded previous value `prev` it emits a `probability_change` signal iff
`|curr - prev| * 100 ≥ threshold`, with direction `YES` and
`directionProb = curr` when `curr - prev > 0`, else direction `NO` and
`directionProb = 1 - curr`; the stored probability is always updated. -/
theorem c1_process_market_update (threshold : ℚ) (st : MonState) (m : MarketEvent) :
    (m.uid ∉ st.knownIds →
      (processMarketUpdate threshold st m).2 = none ∧
      (processMarketUpdate threshold st m).1.lastProb.lookup m.uid = some m.prob ∧
      m.uid ∈ (processMarketUpdate threshold st m).1.knownIds) ∧
    (∀ prev : ℚ, m.uid ∈ st.knownIds → st.lastProb.lookup m.uid = some prev →
      (((processMarketUpdate threshold st m).2).isSome ↔
        |m.prob - prev| * 100 ≥ threshold) ∧
      (processMarketUpdate threshold st m).2 =
        (if |m.prob - prev| * 100 ≥ threshold then
          some { currentProbability := m.prob
               , previousProbability := prev
               , changePct := |m.prob - prev| * 100
               , direction := if m.prob - prev > 0 then "YES" else "NO"
               , directionProb := if m.prob - prev > 0 then m.prob else 1 - m.prob }
         else none) ∧
      (processMarketUpdate threshold st m).1.lastProb.lookup m.uid = some m.prob) := by
  constructor
  · intro hnew
    simp only [processMarketUpdate, if_neg hnew]
    exact ⟨trivial, lookup_setKey _ _ _, List.mem_cons_self _ _⟩
  · intro prev hmem hprev
    simp only [processMarketUpdate, if_pos hmem, hprev]
    refine ⟨?_, ?_, lookup_setKey _ _ _⟩
    · by_cases h : |m.prob - prev| * 100 ≥ threshold <;> simp [h]
    · by_cases h : |m.prob - prev| * 100 ≥ threshold <;> simp [h]

/-- Witness for C1 at concrete inputs: tracked key `"m1"` with baseline
`1/2` and new probability `7/10` against threshold `5` fires a `YES`
signal with change `20` percentage points. -/
theorem c1_process_market_update_witness :
    (processMarketUpdate 5 ⟨["m1"], [("m1", 1/2)]⟩ ⟨"m1", 7/10, 0, none⟩).2 =
      some ⟨7/10, 1/2, 20, "YES", 7/10⟩ := by
  have h := (c1_process_market_update 5 ⟨["m1"], [("m1", 1/2)]⟩
    ⟨"m1", 7/10, 0, none⟩).2 (1/2) (by decide) rfl
  rw [h.2.1]
  have h5 : |(1 : ℚ)/5| = 1/5 := abs_of_pos (by norm_num)
  norm_num [h5]

/-- C10: a market key present in `known_market_ids` (e.g. restored from the
persisted state file) but absent from the in-memory `last_probability`
dict yields no signal on its next observation, however far the
probability has moved, and only records the new baseline — because
`StatePersistence.save` persists the key set but not `last_probability`. -/
theorem c10_restart_baseline (threshold : ℚ) (st : MonState) (m : MarketEvent)
    (hmem : m.uid ∈ st.knownIds) (hnone : st.lastProb.lookup m.uid = none) :
    (processMarketUpdate threshold st m).2 = none ∧
    (processMarketUpdate threshold st m).1.lastProb.lookup m.uid = some m.prob := by
  simp only [processMarketUpdate, if_pos hmem, hnone]
  exact ⟨trivial, lookup_setKey _ _ _⟩

/-- Witness for C10: key `"m1"` known but with no recorded probability;
a move to `99/100` against threshold `1` emits nothing and records the
baseline. -/
theorem c10_restart_baseline_witness :
    (processMarketUpdate 1 ⟨["m1"], []⟩ ⟨"m1", 99/100, 0, none⟩).2 = none ∧
    (processMarketUpdate 1 ⟨["m1"], []⟩
      ⟨"m1", 99/100, 0, none⟩).1.lastProb.lookup "m1" = some (99/100) :=
  c10_restart_baseline 1 ⟨["m1"], []⟩ ⟨"m1", 99/100, 0, none⟩ (by decide) rfl

end Monitor

namespace Spike

/-- One stored row of the detector's DataFrame (`SpikeDetector.update`):
market id, timestamp (in minutes), probability, and volume (stored as
`0.0` when the snapshot has none). -/
structure Pt where
  marketId : String
  ts : ℚ
  prob : ℚ
  vol : ℚ
deriving DecidableEq

/-- The detector's configuration (constructor arguments of
`SpikeDetector`). -/
structure Cfg where
  zThreshold : ℚ
  spikeWindowMinutes : ℚ
  spikePercentage : ℚ
  volumeSurgeMultiplier : ℚ
deriving DecidableEq

/-- Insertion step of a timestamp sort. -/
def insertTs (p : Pt) : List Pt → List Pt
  | [] => [p]
  | q :: qs => if p.ts < q.ts then p :: q :: qs else q :: insertTs p qs

/-- Sort rows by ascending timestamp (models
`DataFrame.sort_values("timestamp")`; pandas' default sort gives no tie
guarantee and none is relied upon). -/
def sortTs (l : List Pt) : List Pt := l.foldr insertTs []

/-- Rows of the frame belonging to one market, in timestamp order
(`market_data` in `detect_spikes` / `detect_volume_surge`). -/
def marketData (df : List Pt) (uid : String) : List Pt :=
  sortTs (df.filter (fun p => p.marketId == uid))

/-- The trailing one-hour window strictly before the current timestamp
(`historical_data` in `detect_spikes`). -/
def histWindow (df : List Pt) (uid : String) (now : ℚ) : List Pt :=
  (marketData df uid).filter (fun p => decide (now - 60 ≤ p.ts ∧ p.ts < now))

/-- The trailing `spike_window_minutes` window strictly before the
current timestamp (`recent_data` in `detect_spikes`). -/
def recentWindow (cfg : Cfg) (df : List Pt) (uid : String) (now : ℚ) : List Pt :=
  (marketData df uid).filter
    (fun p => decide (now - cfg.spikeWindowMinutes ≤ p.ts ∧ p.ts < now))

/-- Arithmetic mean of a list of rationals (`Series.mean`). -/
def mean (l : List ℚ) : ℚ := l.sum / l.length

/-- Sample variance (one delta degree of freedom), the square of pandas'
`Series.std`; for a window of at least two points, `std == 0 or
isnan(std)` holds exactly when this variance is `0`. -/
def sampleVar (l : List ℚ) : ℚ :=
  (l.map (fun x => (x - mean l)^2)).sum / ((l.length : ℚ) - 1)

/-- The branch tag reported in the alert's `method` field. -/
inductive Method
  | percentage
  | zScore
  | percentageWindow
deriving DecidableEq

/-- A probability-spike alert: branch tag, current probability, the
reference value (window mean for the one-hour branches, oldest
short-window probability for `percentage_window`) and
`change_percentage`.  The floating `z_score` payload field is omitted:
it is the square root of a rational, and the z-branch condition is
stated exactly below by comparing squares. -/
structure SpikeSig where
  method : Method
  currentProbability : ℚ
  reference : ℚ
  changePercentage : ℚ
deriving DecidableEq

/-- `abs(z) >= z_threshold` for `z = (curr - mu)/std`, `std = sqrt v`
with `v > 0`, written without square roots: `|z| ≥ t` iff `t ≤ 0` or
`z² ≥ t²`, i.e. `t² * v ≤ (curr - mu)²`. -/
def ZFires (cfg : Cfg) (curr mu v : ℚ) : Prop :=
  cfg.zThreshold ≤ 0 ∨ cfg.zThreshold ^ 2 * v ≤ (curr - mu) ^ 2

instance (cfg : Cfg) (curr mu v : ℚ) : Decidable (ZFires cfg curr mu v) := by
  unfold ZFires
  infer_instance

/-- `SpikeDetector.detect_spikes` (`analysis/spike_detection.py`,
lines 73-169). -/
def detectSpikes (cfg : Cfg) (df : List Pt) (m : Monitor.MarketEvent) :
    Option SpikeSig :=
  if df = [] then none
  else if (marketData df m.uid).length < 2 then none
  else
    let hist := histWindow df m.uid m.ts
    if hist.length < 2 then none
    else
      let mu := mean (hist.map Pt.prob)
      let v := sampleVar (hist.map Pt.prob)
      if v = 0 then
        if 0 < mu then
          let pct := |(m.prob - mu) / mu| * 100
          if cfg.spikePercentage ≤ pct then
            some ⟨Method.percentage, m.prob, mu, pct⟩
          else none
        else none
      else if ZFires cfg m.prob mu v then
        some ⟨Method.zScore, m.prob, mu,
          if 0 < mu then |(m.prob - mu) / mu| * 100 else 0⟩
      else
        match (recentWindow cfg df m.uid m.ts).head? with
        | none => none
        | some p₀ =>
          if 0 < p₀.prob then
            let pct := |(m.prob - p₀.prob) / p₀.prob| * 100
            if cfg.spikePercentage ≤ pct then
              some ⟨Method.percentageWindow, m.prob, p₀.prob, pct⟩
            else none
          else none

/-- A volume-surge alert: current volume, historical average and the
realized multiplier. -/
structure SurgeSig where
  currentVolume : ℚ
  averageVolume : ℚ
  multiplier : ℚ
deriving DecidableEq

/-- The in-window positive-volume history used by
`detect_volume_surge` (its `historical_data`). -/
def volWindow (df : List Pt) (uid : String) (now : ℚ) : List Pt :=
  (marketData df uid).filter
    (fun p => decide ((now - 60 ≤ p.ts ∧ p.ts < now) ∧ 0 < p.vol))

/-- `SpikeDetector.detect_volume_surge` (`analysis/spike_detection.py`,
lines 171-219). -/
def detectVolumeSurge (cfg : Cfg) (df : List Pt) (m : Monitor.MarketEvent) :
    Option SurgeSig :=
  if df = [] then none
  else
    match m.vol with
    | none => none
    | some cv =>
      if (marketData df m.uid).length < 2 then none
      else
        let hist := volWindow df m.uid m.ts
        if hist = [] then none
        else
          let avg := mean (hist.map Pt.vol)
          if 0 < avg ∧ avg * cfg.volumeSurgeMultiplier ≤ cv then
            some ⟨cv, avg, cv / avg⟩
          else none

theorem length_insertTs (p : Pt) (l : List Pt) :
    (insertTs p l).length = l.length + 1 := by
  induction l with
  | nil => rfl
  | cons q qs ih =>
    by_cases h : p.ts < q.ts <;> simp [insertTs, h, ih]

theorem length_sortTs (l : List Pt) : (sortTs l).length = l.length := by
  induction l with
  | nil => rfl
  | cons q qs ih => simp [sortTs, List.foldr] at ih ⊢; rw [length_insertTs, ih]

theorem hist_le_market (df : List Pt) (uid : String) (now : ℚ) :
    (histWindow df uid now).length ≤ (marketData df uid).length :=
  List.length_filter_le _ _

theorem market_ne_nil_of_length (df : List Pt) (uid : String)
    (h : 2 ≤ (marketData df uid).length) : df ≠ [] := by
  intro hdf
  subst hdf
  simp [marketData, sortTs] at h

/-- Shared evaluation lemma: `detect_spikes` on a window of at least two
points with zero sample variance and positive mean reduces to the
percentage-fallback branch. -/
theorem detectSpikes_var_zero (cfg : Cfg) (df : List Pt) (m : Monitor.MarketEvent)
    (hh : 2 ≤ (histWindow df m.uid m.ts).length)
    (hv : sampleVar ((histWindow df m.uid m.ts).map Pt.prob) = 0)
    (hmu : 0 < mean ((histWindow df m.uid m.ts).map Pt.prob)) :
    detectSpikes cfg df m =
      (if cfg.spikePercentage ≤
          |(m.prob - mean ((histWindow df m.uid m.ts).map Pt.prob)) /
            mean ((histWindow df m.uid m.ts).map Pt.prob)| * 100 then
        some ⟨Method.percentage, m.prob,
          mean ((histWindow df m.uid m.ts).map Pt.prob),
          |(m.prob - mean ((histWindow df m.uid m.ts).map Pt.prob)) /
            mean ((histWindow df m.uid m.ts).map Pt.prob)| * 100⟩
      else none) := by
  have hmd : ¬ (marketData df m.uid).length < 2 := by
    have := hist_le_market df m.uid m.ts
    omega
  have hdf : df ≠ [] := market_ne_nil_of_length df m.uid (by omega)
  have hh2 : ¬ (histWindow df m.uid m.ts).length < 2 := by omega
  simp only [detectSpikes, if_neg hdf, if_neg hmd, if_neg hh2, if_pos hv, if_pos hmu]

/-- C3: when the trailing one-hour window holds at least two points whose
sample standard deviation is zero (for at least two points pandas' `std`
is never NaN, and it is zero exactly when the sample variance is zero),
`detect_spikes` falls back to the absolute percentage change against the
window mean `mu` and — provided `mu > 0` as the code requires — signals
with method `percentage` iff that change reaches `spike_percentage`.
The witness instantiates the spec's worked example
`{t-50min: 0.50, t-10min: 0.50}` with new point `0.65`. -/
theorem c3_sigma_zero_fallback (cfg : Cfg) (df : List Pt) (m : Monitor.MarketEvent)
    (hh : 2 ≤ (histWindow df m.uid m.ts).length)
    (hv : sampleVar ((histWindow df m.uid m.ts).map Pt.prob) = 0)
    (hmu : 0 < mean ((histWindow df m.uid m.ts).map Pt.prob)) :
    detectSpikes cfg df m =
      (if cfg.spikePercentage ≤
          |(m.prob - mean ((histWindow df m.uid m.ts).map Pt.prob)) /
            mean ((histWindow df m.uid m.ts).map Pt.prob)| * 100 then
        some ⟨Method.percentage, m.prob,
          mean ((histWindow df m.uid m.ts).map Pt.prob),
          |(m.prob - mean ((histWindow df m.uid m.ts).map Pt.prob)) /
            mean ((histWindow df m.uid m.ts).map Pt.prob)| * 100⟩
      else none) :=
  detectSpikes_var_zero cfg df m hh hv hmu

/-- Detector configuration for the C3 witness: z-threshold 2, short
window 30 minutes, percentage threshold 10, surge multiplier 3. -/
def cfgC3 : Cfg := ⟨2, 30, 10, 3⟩

/-- Frame for the C3 witness: points `0.50` at `t-50min` and `t-10min`,
then the new point `0.65` at `t = 0` (appended by `update` before
detection). -/
def dfC3 : List Pt :=
  [⟨"m", -50, 1/2, 0⟩, ⟨"m", -10, 1/2, 0⟩, ⟨"m", 0, 13/20, 0⟩]

/-- The C3 witness snapshot: probability `0.65` at `t = 0`. -/
def mC3 : Monitor.MarketEvent := ⟨"m", 13/20, 0, none⟩

theorem histWindow_dfC3 :
    histWindow dfC3 "m" 0 = [⟨"m", -50, 1/2, 0⟩, ⟨"m", -10, 1/2, 0⟩] := by
  norm_num [histWindow, marketData, sortTs, insertTs, dfC3, List.filter_cons]

/-- Witness for C3: the spec's worked example yields a spike signal with
method `percentage` and `change_percentage = 30`. -/
theorem c3_sigma_zero_fallback_witness :
    detectSpikes cfgC3 dfC3 mC3 = some ⟨Method.percentage, 13/20, 1/2, 30⟩ := by
  have hw : histWindow dfC3 mC3.uid mC3.ts =
      [⟨"m", -50, 1/2, 0⟩, ⟨"m", -10, 1/2, 0⟩] := histWindow_dfC3
  have h := c3_sigma_zero_fallback cfgC3 dfC3 mC3
    (by rw [hw]; norm_num)
    (by rw [hw]; norm_num [sampleVar, mean])
    (by rw [hw]; norm_num [mean])
  rw [h, hw]
  norm_num [mean, cfgC3, mC3, abs_of_pos]

/-- C2 (amended): `detect_spikes` runs its checks in a fixed order and
returns at most one signal, but the secondary `spike_window_minutes`
check is reached only from the branch where the sample deviation is
nonzero and the z-score check did not fire; when the deviation is zero
the fallback's outcome is final and the secondary check is skipped, so
a `percentage_window` signal can only arise with nonzero deviation.
The z-branch condition `|z| ≥ z_threshold` is stated exactly over the
rationals as `z_threshold ≤ 0 ∨ z_threshold² · var ≤ (curr − mean)²`. -/
theorem c2_check_order (cfg : Cfg) (df : List Pt) (m : Monitor.MarketEvent)
    (hh : 2 ≤ (histWindow df m.uid m.ts).length) :
    (sampleVar ((histWindow df m.uid m.ts).map Pt.prob) = 0 →
      ∀ s, detectSpikes cfg df m = some s → s.method = Method.percentage) ∧
    (sampleVar ((histWindow df m.uid m.ts).map Pt.prob) ≠ 0 →
      ZFires cfg m.prob (mean ((histWindow df m.uid m.ts).map Pt.prob))
        (sampleVar ((histWindow df m.uid m.ts).map Pt.prob)) →
      detectSpikes cfg df m =
        some ⟨Method.zScore, m.prob, mean ((histWindow df m.uid m.ts).map Pt.prob),
          if 0 < mean ((histWindow df m.uid m.ts).map Pt.prob) then
            |(m.prob - mean ((histWindow df m.uid m.ts).map Pt.prob)) /
              mean ((histWindow df m.uid m.ts).map Pt.prob)| * 100
          else 0⟩) ∧
    (sampleVar ((histWindow df m.uid m.ts).map Pt.prob) ≠ 0 →
      ¬ ZFires cfg m.prob (mean ((histWindow df m.uid m.ts).map Pt.prob))
        (sampleVar ((histWindow df m.uid m.ts).map Pt.prob)) →
      detectSpikes cfg df m =
        match (recentWindow cfg df m.uid m.ts).head? with
        | none => none
        | some p₀ =>
          if 0 < p₀.prob then
            if cfg.spikePercentage ≤ |(m.prob - p₀.prob) / p₀.prob| * 100 then
              some ⟨Method.percentageWindow, m.prob, p₀.prob,
                |(m.prob - p₀.prob) / p₀.prob| * 100⟩
            else none
          else none) := by
  have hmd : ¬ (marketData df m.uid).length < 2 := by
    have := hist_le_market df m.uid m.ts
    omega
  have hdf : df ≠ [] := market_ne_nil_of_length df m.uid (by omega)
  have hh2 : ¬ (histWindow df m.uid m.ts).length < 2 := by omega
  refine ⟨?_, ?_, ?_⟩
  · intro hv0 s hs
    simp only [detectSpikes, if_neg hdf, if_neg hmd, if_neg hh2, if_pos hv0] at hs
    by_cases hmu : 0 < mean ((histWindow df m.uid m.ts).map Pt.prob)
    · rw [if_pos hmu] at hs
      by_cases hpct : cfg.spikePercentage ≤
          |(m.prob - mean ((histWindow df m.uid m.ts).map Pt.prob)) /
            mean ((histWindow df m.uid m.ts).map Pt.prob)| * 100
      · rw [if_pos hpct] at hs
        injection hs with h
        rw [← h]
      · rw [if_neg hpct] at hs
        exact absurd hs (by simp)
    · rw [if_neg hmu] at hs
      exact absurd hs (by simp)
  · intro hv0 hz
    simp only [detectSpikes, if_neg hdf, if_neg hmd, if_neg hh2, if_neg hv0, if_pos hz]
  · intro hv0 hz
    simp only [detectSpikes, if_neg hdf, if_neg hmd, if_neg hh2, if_neg hv0, if_neg hz]

/-- Detector configuration for the C2 counterexample: z-threshold 2,
short window 120 minutes, percentage threshold 10. -/
def cfgC2 : Cfg := ⟨2, 120, 10, 3⟩

/-- Frame for the C2 counterexample: probability `0.2` at `t-90min`
(inside the 120-minute secondary window, outside the one-hour window),
`0.5` at `t-50min` and `t-10min`, and the new point `0.5` at `t = 0`. -/
def dfC2 : List Pt :=
  [⟨"m", -90, 1/5, 0⟩, ⟨"m", -50, 1/2, 0⟩, ⟨"m", -10, 1/2, 0⟩, ⟨"m", 0, 1/2, 0⟩]

/-- The C2 counterexample snapshot: probability `0.5` at `t = 0`. -/
def mC2 : Monitor.MarketEvent := ⟨"m", 1/2, 0, none⟩

theorem histWindow_dfC2 :
    histWindow dfC2 "m" 0 = [⟨"m", -50, 1/2, 0⟩, ⟨"m", -10, 1/2, 0⟩] := by
  norm_num [histWindow, marketData, sortTs, insertTs, dfC2, List.filter_cons]

/-- Counterexample to C2 as stated: on this input the z-score check never
fires (the deviation is zero, so no z-score is computed) and the one-hour
fallback does not fire (`change = 0 < 10`), the 120-minute secondary
window is non-empty with oldest probability `0.2` and a percentage change
of `150 ≥ 10`, yet `detect_spikes` returns no signal: the secondary check
is not performed after the zero-deviation fallback declines. -/
theorem c2_counterexample :
    detectSpikes cfgC2 dfC2 mC2 = none ∧
    sampleVar ((histWindow dfC2 "m" 0).map Pt.prob) = 0 ∧
    |(mC2.prob - mean ((histWindow dfC2 "m" 0).map Pt.prob)) /
      mean ((histWindow dfC2 "m" 0).map Pt.prob)| * 100 < cfgC2.spikePercentage ∧
    (recentWindow cfgC2 dfC2 "m" 0).head? = some ⟨"m", -90, 1/5, 0⟩ ∧
    cfgC2.spikePercentage ≤ |(mC2.prob - 1/5) / (1/5)| * 100 := by
  have hw : histWindow dfC2 mC2.uid mC2.ts =
      [⟨"m", -50, 1/2, 0⟩, ⟨"m", -10, 1/2, 0⟩] := histWindow_dfC2
  have h := detectSpikes_var_zero cfgC2 dfC2 mC2
    (by rw [hw]; norm_num)
    (by rw [hw]; norm_num [sampleVar, mean])
    (by rw [hw]; norm_num [mean])
  refine ⟨?_, ?_, ?_, ?_, ?_⟩
  · rw [h, hw]
    norm_num [mean, cfgC2, mC2]
  · rw [histWindow_dfC2]
    norm_num [sampleVar, mean]
  · rw [histWindow_dfC2]
    norm_num [mean, cfgC2, mC2]
  · norm_num [recentWindow, marketData, sortTs, insertTs, dfC2, cfgC2, List.filter_cons]
  · norm_num [cfgC2, mC2, abs_of_pos]

/-- Detector configuration for the C2 witness: z-threshold 10, short
window 30 minutes, percentage threshold 10. -/
def cfgC2w : Cfg := ⟨10, 30, 10, 3⟩

/-- Frame for the C2 witness: `0.4` at `t-50min`, `0.5` at `t-10min`,
new point `0.65` at `t = 0`; the deviation is nonzero, the z-score check
fails, and the 30-minute window check fires. -/
def dfC2w : List Pt :=
  [⟨"m", -50, 2/5, 0⟩, ⟨"m", -10, 1/2, 0⟩, ⟨"m", 0, 13/20, 0⟩]

/-- The C2 witness snapshot: probability `0.65` at `t = 0`. -/
def mC2w : Monitor.MarketEvent := ⟨"m", 13/20, 0, none⟩

/-- Witness for C2 (amended) at a concrete input: nonzero deviation,
z-score check misses, and the secondary window check produces the
`percentage_window` signal with change `30`. -/
theorem c2_check_order_witness :
    detectSpikes cfgC2w dfC2w mC2w =
      some ⟨Method.percentageWindow, 13/20, 1/2, 30⟩ := by
  have hw : histWindow dfC2w mC2w.uid mC2w.ts =
      [⟨"m", -50, 2/5, 0⟩, ⟨"m", -10, 1/2, 0⟩] := by
    norm_num [histWindow, marketData, sortTs, insertTs, dfC2w, mC2w, List.filter_cons]
  have h := (c2_check_order cfgC2w dfC2w mC2w (by rw [hw]; norm_num)).2.2
    (by rw [hw]; norm_num [sampleVar, mean])
    (by rw [hw]; norm_num [ZFires, sampleVar, mean, cfgC2w, mC2w])
  rw [h]
  have hr : (recentWindow cfgC2w dfC2w mC2w.uid mC2w.ts).head? =
      some ⟨"m", -10, 1/2, 0⟩ := by
    norm_num [recentWindow, marketData, sortTs, insertTs, dfC2w, cfgC2w, mC2w,
      List.filter_cons]
  rw [hr]
  norm_num [cfgC2w, mC2w, abs_of_pos]

theorem mem_insertTs {q p : Pt} {l : List Pt} :
    q ∈ insertTs p l ↔ q = p ∨ q ∈ l := by
  induction l with
  | nil => simp [insertTs]
  | cons x xs ih =>
    by_cases h : p.ts < x.ts
    · simp [insertTs, h]
    · simp [insertTs, h, ih]
      tauto

theorem mem_sortTs {q : Pt} {l : List Pt} : q ∈ sortTs l ↔ q ∈ l := by
  induction l with
  | nil => simp [sortTs]
  | cons x xs ih =>
    simp only [sortTs, List.foldr] at ih ⊢
    rw [mem_insertTs, ih, List.mem_cons]

theorem two_le_length_of_mem_ne {α : Type} {a b : α} {l : List α}
    (ha : a ∈ l) (hb : b ∈ l) (hne : a ≠ b) : 2 ≤ l.length := by
  induction l with
  | nil => simp at ha
  | cons x xs ih =>
    rcases List.mem_cons.mp ha with rfl | ha'
    · rcases List.mem_cons.mp hb with rfl | hb'
      · exact absurd rfl hne
      · have : 1 ≤ xs.length := List.length_pos.mpr (List.ne_nil_of_mem hb')
        simp only [List.length_cons]
        omega
    · have : 1 ≤ xs.length := List.length_pos.mpr (List.ne_nil_of_mem ha')
      simp only [List.length_cons]
      omega

/-- C4: provided the just-appended current snapshot row is in the frame
(`update` runs before detection, and the spec's own data flow appends the
record before the detector evaluates it), `detect_volume_surge` returns a
surge signal exactly when the snapshot's volume is present, at least one
positive-volume point lies in the trailing hour strictly before the
current timestamp, the historical mean is positive, and the current
volume reaches `mean × volume_surge_multiplier`; the signal carries the
realized multiplier `current / mean`. -/
theorem c4_volume_surge (cfg : Cfg) (df : List Pt) (m : Monitor.MarketEvent)
    (hcur : ∃ c ∈ df, c.marketId = m.uid ∧ c.ts = m.ts) :
    detectVolumeSurge cfg df m =
      match m.vol with
      | none => none
      | some cv =>
        if volWindow df m.uid m.ts = [] then none
        else
          if 0 < mean ((volWindow df m.uid m.ts).map Pt.vol) ∧
              mean ((volWindow df m.uid m.ts).map Pt.vol) *
                cfg.volumeSurgeMultiplier ≤ cv then
            some ⟨cv, mean ((volWindow df m.uid m.ts).map Pt.vol),
              cv / mean ((volWindow df m.uid m.ts).map Pt.vol)⟩
          else none := by
  obtain ⟨c, hcdf, hcid, hcts⟩ := hcur
  have hdf : df ≠ [] := List.ne_nil_of_mem hcdf
  cases hm : m.vol with
  | none => simp only [detectVolumeSurge, if_neg hdf, hm]
  | some cv =>
    by_cases hwin : volWindow df m.uid m.ts = []
    · by_cases hmd : (marketData df m.uid).length < 2
      · simp only [detectVolumeSurge, if_neg hdf, hm, if_pos hmd, if_pos hwin]
      · simp only [detectVolumeSurge, if_neg hdf, hm, if_neg hmd, if_pos hwin]
    · obtain ⟨p, hp⟩ := List.exists_mem_of_ne_nil _ hwin
      have hpmd : p ∈ marketData df m.uid := List.mem_of_mem_filter hp
      have hpts : p.ts < m.ts := by
        have hfp := List.of_mem_filter hp
        simp only [decide_eq_true_eq] at hfp
        exact hfp.1.2
      have hcmd : c ∈ marketData df m.uid := by
        unfold marketData
        rw [mem_sortTs]
        exact List.mem_filter.mpr ⟨hcdf, by simp [hcid]⟩
      have hne : p ≠ c := by
        intro hpc
        rw [hpc, hcts] at hpts
        exact lt_irrefl _ hpts
      have h2 : 2 ≤ (marketData df m.uid).length :=
        two_le_length_of_mem_ne hpmd hcmd hne
      simp only [detectVolumeSurge, if_neg hdf, hm,
        if_neg (by omega : ¬ (marketData df m.uid).length < 2), if_neg hwin]

/-- Detector configuration for the C4 witness: surge multiplier 3. -/
def cfgC4 : Cfg := ⟨2, 30, 10, 3⟩

/-- Frame for the C4 witness: historical volumes `50000` and `60000`
inside the trailing hour, current point with volume `300000`. -/
def dfC4 : List Pt :=
  [⟨"m", -40, 1/2, 50000⟩, ⟨"m", -20, 1/2, 60000⟩, ⟨"m", 0, 1/2, 300000⟩]

/-- The C4 witness snapshot: volume `300000` at `t = 0`. -/
def mC4 : Monitor.MarketEvent := ⟨"m", 1/2, 0, some 300000⟩

/-- Witness for C4: the spec's worked example (historical volumes
`{50000, 60000}`, current volume `300000`, multiplier `3`) yields a
volume-surge signal with mean `55000` and realized multiplier `60/11`
(≈ 5.45). -/
theorem c4_volume_surge_witness :
    detectVolumeSurge cfgC4 dfC4 mC4 = some ⟨300000, 55000, 60/11⟩ := by
  have h := c4_volume_surge cfgC4 dfC4 mC4
    ⟨⟨"m", 0, 1/2, 300000⟩, by simp [dfC4], rfl, rfl⟩
  rw [h]
  have hw : volWindow dfC4 "m" 0 =
      [⟨"m", -40, 1/2, 50000⟩, ⟨"m", -20, 1/2, 60000⟩] := by
    norm_num [volWindow, marketData, sortTs, insertTs, dfC4, List.filter_cons]
  simp only [mC4]
  rw [hw]
  norm_num [mean, cfgC4]
  simp

end Spike

namespace Limiter

/-- State of `TokenBucketRateLimiter` (`utils/rate_limiter.py`): refill
rate in tokens per second, burst capacity, current token count and the
`last_update` wall-clock timestamp (seconds, as rationals). -/
structure Bucket where
  rate : ℚ
  capacity : ℚ
  tokens : ℚ
  lastUpdate : ℚ
deriving DecidableEq

/-- `TokenBucketRateLimiter.__init__`: capacity defaults to `rate * 2`
when not given; the bucket starts full at construction time `t₀`. -/
def mkBucket (rate : ℚ) (capacity : Option ℚ) (t₀ : ℚ) : Bucket :=
  let c := capacity.getD (rate * 2)
  ⟨rate, c, c, t₀⟩

/-- The refill step at the head of `acquire`:
`tokens = min(capacity, tokens + elapsed * rate); last_update = now`. -/
def refill (b : Bucket) (now : ℚ) : Bucket :=
  { b with tokens := min b.capacity (b.tokens + (now - b.lastUpdate) * b.rate)
         , lastUpdate := now }

/-- `TokenBucketRateLimiter.acquire(tokens)` evaluated at wall-clock
`now`: refill, then deduct `n` and succeed if `n` tokens are available,
else fail leaving the refilled state. -/
def acquire (b : Bucket) (now n : ℚ) : Bool × Bucket :=
  let b₁ := refill b now
  if n ≤ b₁.tokens then (true, { b₁ with tokens := b₁.tokens - n })
  else (false, b₁)

/-- `TokenBucketRateLimiter.wait(tokens)` with an iteration budget: each
failed `acquire` sleeps `max(0.01, (n - tokens) / rate)` (reading the
tokens left by the failed acquire) and retries at the advanced
wall-clock time.  Returns the final bucket, the finish time and the
number of `acquire` calls made, or `none` when the budget runs out
before success. -/
def waitFuel (n : ℚ) : Nat → Bucket → ℚ → Option (Bucket × ℚ × Nat)
  | 0, _, _ => none
  | fuel + 1, b, now =>
    let r := acquire b now n
    if r.1 then some (r.2, now, 1)
    else
      let slp := max (1/100) ((n - r.2.tokens) / r.2.rate)
      (waitFuel n fuel r.2 (now + slp)).map (fun x => (x.1, x.2.1, x.2.2 + 1))

theorem refill_refill (b : Bucket) (now now' : ℚ) (h : now ≤ now')
    (hr : 0 ≤ b.rate) : refill (refill b now) now' = refill b now' := by
  obtain ⟨r, c, t, l⟩ := b
  simp only [refill, Bucket.mk.injEq] at hr ⊢
  refine ⟨trivial, trivial, ?_, trivial⟩
  have hd : 0 ≤ (now' - now) * r := mul_nonneg (by linarith) hr
  have key : t + (now' - l) * r = (t + (now - l) * r) + (now' - now) * r := by ring
  rw [key]
  rcases le_total (t + (now - l) * r) c with hA | hA
  · rw [min_eq_right hA]
  · rw [min_eq_left hA,
      min_eq_left (by linarith : c ≤ c + (now' - now) * r),
      min_eq_left (by linarith : c ≤ (t + (now - l) * r) + (now' - now) * r)]

/-- C6: `acquire(n)` first refills to `min(capacity, tokens + elapsed *
rate)`; it succeeds iff the refilled tokens reach `n`, deducting `n`;
on failure it leaves the refilled state, which behaves identically to
the original state for every later call (failure has no observable side
effect, given non-decreasing wall-clock time and non-negative rate);
afterwards `tokens ≤ capacity` holds whenever `0 ≤ n`; and a bucket
built without an explicit capacity gets `capacity = 2 * rate`. -/
theorem c6_acquire (b : Bucket) (now n : ℚ) :
    ((acquire b now n).1 = true ↔ n ≤ (refill b now).tokens) ∧
    ((acquire b now n).1 = true →
      (acquire b now n).2 = { refill b now with tokens := (refill b now).tokens - n }) ∧
    ((acquire b now n).1 = false →
      (acquire b now n).2 = refill b now ∧
      ∀ now' m : ℚ, now ≤ now' → 0 ≤ b.rate →
        acquire (acquire b now n).2 now' m = acquire b now' m) ∧
    (0 ≤ n → (acquire b now n).2.tokens ≤ b.capacity) ∧
    (∀ rate t₀ : ℚ, (mkBucket rate none t₀).capacity = 2 * rate) := by
  have htok : (refill b now).tokens ≤ b.capacity := min_le_left _ _
  refine ⟨?_, ?_, ?_, ?_, ?_⟩
  · by_cases h : n ≤ (refill b now).tokens <;> simp [acquire, h]
  · intro hs
    by_cases h : n ≤ (refill b now).tokens
    · simp [acquire, h]
    · simp [acquire, h] at hs
  · intro hf
    by_cases h : n ≤ (refill b now).tokens
    · simp [acquire, h] at hf
    · have h2' : (acquire b now n).2 = refill b now := by simp [acquire, h]
      refine ⟨h2', fun now' m h1 h2 => ?_⟩
      rw [h2']
      simp only [acquire]
      rw [refill_refill b now now' h1 h2]
  · intro hn
    by_cases h : n ≤ (refill b now).tokens
    · have he : (acquire b now n).2.tokens = (refill b now).tokens - n := by
        simp [acquire, h]
      rw [he]
      linarith
    · have he : (acquire b now n).2.tokens = (refill b now).tokens := by
        simp [acquire, h]
      rw [he]
      linarith
  · intro rate t₀
    simp [mkBucket, mul_comm]

/-- Witness for C6 at a concrete input: a bucket with rate `1` and
capacity `2` holding `2` tokens grants one token and is left within
capacity. -/
theorem c6_acquire_witness :
    (0 : ℚ) ≤ 1 ∧
    (acquire ⟨1, 2, 2, 0⟩ 0 1).2.tokens ≤ (Bucket.mk 1 2 2 0).capacity :=
  ⟨by norm_num, (c6_acquire ⟨1, 2, 2, 0⟩ 0 1).2.2.2.1 (by norm_num)⟩

theorem waitFuel_none_of_gt_capacity (n : ℚ) (fuel : Nat) (b : Bucket) (now : ℚ)
    (h : b.capacity < n) : waitFuel n fuel b now = none := by
  induction fuel generalizing b now with
  | zero => rfl
  | succ f ih =>
    have hfail : ¬ n ≤ (refill b now).tokens := by
      have h1 : (refill b now).tokens ≤ b.capacity :=
        min_le_left b.capacity (b.tokens + (now - b.lastUpdate) * b.rate)
      linarith
    rw [waitFuel]
    have hr1 : (acquire b now n).1 = false := by simp [acquire, hfail]
    have hr2 : (acquire b now n).2 = refill b now := by simp [acquire, hfail]
    rw [hr1, hr2]
    simp only [Bool.false_eq_true, if_false]
    rw [ih (refill b now) _ h]
    rfl

/-- Counterexample to C7 as stated: a limiter with rate `1 > 0` and
default capacity `2`, asked for `n = 3` tokens, never succeeds — the
refilled token count is capped at the capacity, every `acquire` fails,
and `wait` loops forever (no iteration budget suffices). -/
theorem c7_counterexample :
    ¬ ∃ fuel : Nat, (waitFuel 3 fuel (mkBucket 1 none 0) 0).isSome := by
  rintro ⟨fuel, h⟩
  rw [waitFuel_none_of_gt_capacity 3 fuel (mkBucket 1 none 0) 0
    (by norm_num [mkBucket])] at h
  simp at h

/-- C7 (amended): for a limiter with `rate > 0`, `wait(n)` terminates for
every request `n ≤ capacity` — within two `acquire` calls: either the
first `acquire` succeeds immediately, or the single sleep
`max(0.01, (n - tokens)/rate)` refills enough for the second `acquire`
to succeed.  (For `n > capacity` it loops forever; see the
counterexample to the unamended claim.) -/
theorem c7_wait_terminates (b : Bucket) (n now : ℚ)
    (hr : 0 < b.rate) (hn : n ≤ b.capacity) :
    (n ≤ (refill b now).tokens →
      waitFuel n 2 b now =
        some ({ refill b now with tokens := (refill b now).tokens - n }, now, 1)) ∧
    (¬ n ≤ (refill b now).tokens →
      ∃ bf, waitFuel n 2 b now =
        some (bf, now + max (1/100) ((n - (refill b now).tokens) / b.rate), 2)) := by
  constructor
  · intro hok
    rw [waitFuel]
    have hr1 : (acquire b now n).1 = true := by simp [acquire, hok]
    have hr2 : (acquire b now n).2 =
        { refill b now with tokens := (refill b now).tokens - n } := by
      simp [acquire, hok]
    rw [hr1, hr2]
    simp
  · intro hfail
    rw [waitFuel]
    have hr1 : (acquire b now n).1 = false := by simp [acquire, hfail]
    have hr2 : (acquire b now n).2 = refill b now := by simp [acquire, hfail]
    rw [hr1, hr2]
    simp only [Bool.false_eq_true, if_false]
    set b₁ := refill b now with hb₁
    set slp := max (1/100) ((n - b₁.tokens) / b₁.rate) with hslp
    have hrate : b₁.rate = b.rate := rfl
    have hcap : b₁.capacity = b.capacity := rfl
    have hlast : b₁.lastUpdate = now := rfl
    have hsleep : (n - b₁.tokens) / b.rate ≤ slp := by
      rw [hslp, hrate]
      exact le_max_right _ _
    have hok2 : n ≤ (refill b₁ (now + slp)).tokens := by
      have h1 : n - b₁.tokens ≤ slp * b.rate := by
        rw [div_le_iff₀ hr] at hsleep
        linarith
      have h2 : n ≤ b₁.tokens + (now + slp - b₁.lastUpdate) * b₁.rate := by
        rw [hlast, hrate]
        have he : now + slp - now = slp := by ring
        rw [he]
        linarith
      have h3 : n ≤ b₁.capacity := by rw [hcap]; exact hn
      exact le_min h3 h2
    rw [waitFuel]
    have hs1 : (acquire b₁ (now + slp) n).1 = true := by simp [acquire, hok2]
    rw [hs1]
    simp only [if_true]
    refine ⟨(acquire b₁ (now + slp) n).2, ?_⟩
    rw [hslp, hrate]
    rfl

/-- Witness for C7 at a concrete input: an empty bucket (rate `1`,
capacity `2`, `0` tokens) serves a one-token `wait` after a single
sleep of `max(0.01, 1) = 1` second, in exactly two `acquire` calls. -/
theorem c7_wait_terminates_witness :
    ∃ bf, waitFuel 1 2 ⟨1, 2, 0, 0⟩ 0 =
      some (bf, 0 + max (1/100) ((1 - (refill ⟨1, 2, 0, 0⟩ 0).tokens) /
        (Bucket.mk 1 2 0 0).rate), 2) :=
  (c7_wait_terminates ⟨1, 2, 0, 0⟩ 1 0 (by norm_num) (by norm_num)).2
    (by norm_num [refill])

end Limiter

namespace Backoff

/-- A Python exception as `ExponentialBackoff.retry` observes it: its
string form (`str(e)`) and an optional HTTP `status` attribute. -/
structure PyErr where
  msg : String
  status : Option Nat
deriving DecidableEq

/-- Configuration of `ExponentialBackoff` (`utils/rate_limiter.py`,
lines 66-84). -/
structure BackoffCfg where
  initialDelay : ℚ
  maxDelay : ℚ
  multiplier : ℚ
  maxRetries : Nat
deriving DecidableEq

/-- List-of-characters prefix test (building block of the Python `in`
operator on strings). -/
def listPre : List Char → List Char → Bool
  | [], _ => true
  | _ :: _, [] => false
  | a :: as, b :: bs => a == b && listPre as bs

/-- Substring occurrence test on character lists. -/
def listSub (needle : List Char) : List Char → Bool
  | [] => listPre needle []
  | b :: bs => listPre needle (b :: bs) || listSub needle bs

/-- Python `needle in hay` for strings. -/
def strContains (hay needle : String) : Bool := listSub needle.toList hay.toList

/-- The rate-limit classification of `retry` (lines 110-114):
`"rate limit" in str(e).lower() or "429" in str(e) or
(hasattr(e, "status") and e.status == 429)`. -/
def isRateLimit (e : PyErr) : Bool :=
  strContains e.msg.toLower "rate limit" || strContains e.msg "429" ||
    e.status == some 429

/-- One backoff update (lines 116-121): rate-limit errors double the
multiplier's effect, both capped at `max_delay`. -/
def delayStep (cfg : BackoffCfg) (e : PyErr) (d : ℚ) : ℚ :=
  if isRateLimit e then min cfg.maxDelay (d * cfg.multiplier * 2)
  else min cfg.maxDelay (d * cfg.multiplier)

/-- Observable outcome of a `retry` run: the returned value or the
re-raised exception (`error none` models Python's `raise None` crash
when `max_retries = 0`), the number of invocations of the wrapped
operation, and the list of sleep durations in order. -/
structure RetryTrace (α : Type) where
  result : Except (Option PyErr) α
  calls : Nat
  sleeps : List ℚ

/-- The loop body of `ExponentialBackoff.retry` (lines 100-127), with
`op i` the outcome of the `i`-th invocation of the wrapped operation;
`fuel = max_retries - attempt` counts the remaining loop iterations.
On the last failing attempt (`fuel` reaching zero afterwards) the loop
breaks without sleeping and re-raises. -/
def retryAux {α : Type} (cfg : BackoffCfg) (op : Nat → Except PyErr α) :
    Nat → Nat → ℚ → Option PyErr → RetryTrace α
  | 0, _, _, last => ⟨.error last, 0, []⟩
  | fuel + 1, attempt, delay, _ =>
    match op attempt with
    | .ok v => ⟨.ok v, 1, []⟩
    | .error e =>
      if fuel = 0 then ⟨.error (some e), 1, []⟩
      else
        let d := delayStep cfg e delay
        let rest := retryAux cfg op fuel (attempt + 1) d (some e)
        ⟨rest.result, rest.calls + 1, d :: rest.sleeps⟩

/-- `ExponentialBackoff.retry(func)`. -/
def retry {α : Type} (cfg : BackoffCfg) (op : Nat → Except PyErr α) : RetryTrace α :=
  retryAux cfg op cfg.maxRetries 0 cfg.initialDelay none

/-- The delay in effect after `k` failed attempts with errors
`errs 0, ..., errs (k-1)`, starting from `initial_delay`. -/
def delaySeq (cfg : BackoffCfg) (errs : Nat → PyErr) : Nat → ℚ
  | 0 => cfg.initialDelay
  | k + 1 => delayStep cfg (errs k) (delaySeq cfg errs k)

/-- `delaySeq` shifted to start at attempt index `a` with delay `d`. -/
def delayFrom (cfg : BackoffCfg) (errs : Nat → PyErr) (a : Nat) (d : ℚ) : Nat → ℚ
  | 0 => d
  | k + 1 => delayStep cfg (errs (a + k)) (delayFrom cfg errs a d k)

theorem delayFrom_shift (cfg : BackoffCfg) (errs : Nat → PyErr) (a : Nat) (d : ℚ)
    (k : Nat) : delayFrom cfg errs a d (k + 1) =
      delayFrom cfg errs (a + 1) (delayStep cfg (errs a) d) k := by
  induction k with
  | zero => simp [delayFrom]
  | succ k ih =>
    rw [delayFrom, ih, delayFrom]
    have he : a + (k + 1) = a + 1 + k := by omega
    rw [he]

theorem delaySeq_eq_delayFrom (cfg : BackoffCfg) (errs : Nat → PyErr) (k : Nat) :
    delaySeq cfg errs k = delayFrom cfg errs 0 cfg.initialDelay k := by
  induction k with
  | zero => rfl
  | succ k ih =>
    rw [delaySeq, delayFrom, ih]
    simp

theorem retryAux_calls_le {α : Type} (cfg : BackoffCfg) (op : Nat → Except PyErr α)
    (fuel attempt : Nat) (d : ℚ) (last : Option PyErr) :
    (retryAux cfg op fuel attempt d last).calls ≤ fuel := by
  induction fuel generalizing attempt d last with
  | zero => exact Nat.le.refl
  | succ f ih =>
    cases hcase : op attempt with
    | ok v =>
      simp only [retryAux, hcase]
      omega
    | error e =>
      by_cases hf : f = 0
      · simp only [retryAux, hcase, if_pos hf]
        omega
      · simp only [retryAux, hcase, if_neg hf]
        have h1 := ih (attempt + 1) (delayStep cfg e d) (some e)
        omega

theorem retryAux_all_fail {α : Type} (cfg : BackoffCfg) (op : Nat → Except PyErr α)
    (errs : Nat → PyErr) (fuel attempt : Nat) (d : ℚ) (last : Option PyErr)
    (hfuel : 1 ≤ fuel)
    (hop : ∀ i, attempt ≤ i → i < attempt + fuel → op i = Except.error (errs i)) :
    (retryAux cfg op fuel attempt d last).result =
      Except.error (some (errs (attempt + fuel - 1))) ∧
    (retryAux cfg op fuel attempt d last).calls = fuel ∧
    (retryAux cfg op fuel attempt d last).sleeps.length = fuel - 1 ∧
    ∀ j, j + 1 < fuel →
      (retryAux cfg op fuel attempt d last).sleeps.get? j =
        some (delayFrom cfg errs attempt d (j + 1)) := by
  induction fuel generalizing attempt d last with
  | zero => omega
  | succ f ih =>
    have hoe : op attempt = Except.error (errs attempt) :=
      hop attempt (le_refl _) (by omega)
    by_cases hf : f = 0
    · subst hf
      simp only [retryAux, hoe, if_pos rfl]
      refine ⟨by simp, rfl, rfl, fun j hj => by omega⟩
    · simp only [retryAux, hoe, if_neg hf]
      have hrec := ih (attempt + 1) (delayStep cfg (errs attempt) d) (some (errs attempt))
        (by omega)
        (fun i h1 h2 => hop i (by omega) (by omega))
      refine ⟨?_, ?_, ?_, ?_⟩
      · rw [hrec.1]
        have he : attempt + 1 + f - 1 = attempt + (f + 1) - 1 := by omega
        rw [he]
      · rw [hrec.2.1]
      · simp only [List.length_cons]
        rw [hrec.2.2.1]
        omega
      · intro j hj
        cases j with
        | zero => simp [delayFrom]
        | succ j' =>
          simp only [List.get?_cons_succ]
          rw [hrec.2.2.2 j' (by omega)]
          conv_rhs => rw [delayFrom_shift]

end Backoff

namespace Backoff

/-- C5: `retry(op)` invokes the wrapped operation at most `max_retries`
times for every operation; when every attempt fails (`errs i` the error
of the `i`-th invocation), it makes exactly `max_retries` calls,
re-raises the last attempt's error, sleeps exactly `max_retries - 1`
times (never after the final attempt), and the `j`-th sleep lasts
`delaySeq (j+1)` — the delay after `j+1` failures, each update being
`min(max_delay, delay * multiplier * 2)` for a rate-limit failure
(HTTP 429 status, or a rate-limit / `429` marker in the message) and
`min(max_delay, delay * multiplier)` otherwise. -/
theorem c5_retry_backoff {α : Type} (cfg : BackoffCfg) (op : Nat → Except PyErr α)
    (errs : Nat → PyErr) (h1 : 1 ≤ cfg.maxRetries)
    (hop : ∀ i, i < cfg.maxRetries → op i = Except.error (errs i)) :
    (∀ op' : Nat → Except PyErr α, (retry cfg op').calls ≤ cfg.maxRetries) ∧
    (retry cfg op).calls = cfg.maxRetries ∧
    (retry cfg op).result = Except.error (some (errs (cfg.maxRetries - 1))) ∧
    (retry cfg op).sleeps.length = cfg.maxRetries - 1 ∧
    ∀ j, j + 1 < cfg.maxRetries →
      (retry cfg op).sleeps.get? j = some (delaySeq cfg errs (j + 1)) := by
  have hall := retryAux_all_fail cfg op errs cfg.maxRetries 0 cfg.initialDelay none h1
    (fun i hi1 hi2 => hop i (by omega))
  refine ⟨fun op' => retryAux_calls_le cfg op' _ _ _ _, hall.2.1, ?_, hall.2.2.1, ?_⟩
  · have hres := hall.1
    simpa using hres
  · intro j hj
    rw [delaySeq_eq_delayFrom]
    exact hall.2.2.2 j hj

/-- Backoff configuration for the C5 witness: initial delay `1`, cap
`60`, multiplier `2`, `3` attempts. -/
def cfg5 : BackoffCfg := ⟨1, 60, 2, 3⟩

/-- The C5 witness operation: every invocation raises an exception with
HTTP status 429 (classified as a rate-limit failure). -/
def op5 : Nat → Except PyErr Unit := fun _ => Except.error ⟨"", some 429⟩

/-- Witness for C5: three failing attempts make exactly three calls,
sleep twice with the doubled-multiplier delays `4` then `16` (capped at
`60`), and re-raise the last error. -/
theorem c5_retry_backoff_witness :
    (retry cfg5 op5).calls = 3 ∧
    (retry cfg5 op5).result = Except.error (some ⟨"", some 429⟩) ∧
    (retry cfg5 op5).sleeps.length = 2 ∧
    (retry cfg5 op5).sleeps.get? 0 = some 4 ∧
    (retry cfg5 op5).sleeps.get? 1 = some 16 := by
  have hrl : isRateLimit ⟨"", some 429⟩ = true := by simp [isRateLimit]
  have h := c5_retry_backoff cfg5 op5 (fun _ => ⟨"", some 429⟩)
    (by norm_num [cfg5]) (fun i hi => rfl)
  refine ⟨h.2.1, h.2.2.1, h.2.2.2.1, ?_, ?_⟩
  · rw [h.2.2.2.2 0 (by norm_num [cfg5])]
    norm_num [delaySeq, delayStep, cfg5, min_def, hrl]
  · rw [h.2.2.2.2 1 (by norm_num [cfg5])]
    norm_num [delaySeq, delayStep, cfg5, min_def, hrl]

end Backoff

namespace Persist

/-- A JSON value as held by the state file.  An ISO-8601 timestamp
string is represented by `jts t` carrying the encoded datetime `t` (a
natural number): `datetime.isoformat()` produces such a string and
`datetime.fromisoformat` recovers exactly `t`; `jstr` covers all other
strings, on which `fromisoformat` fails. -/
inductive JVal where
  | jnull
  | jstr (s : String)
  | jts (t : Nat)
  | jnum (q : ℚ)
  | jarr (l : List JVal)
  | jobj (fields : List (String × JVal))

/-- The three outcomes of reading the state file in `load_sets`:
no file, a file `json.load` rejects, or a parsed JSON value. -/
inductive FileRead where
  | missing
  | badJson
  | content (v : JVal)

/-- Result of `load_sets`: the known-market-id set (as a list), the
trade-id to first-seen-time map (as an association list), and whether
the malformed-file warning was printed. -/
structure LoadState where
  marketIds : List String
  tradeIds : List (String × Nat)
  warned : Bool
deriving DecidableEq

/-- Python `dict.get(key, default)` on a parsed JSON object (objects
written by this program have distinct keys). -/
def getField (fields : List (String × JVal)) (k : String) (d : JVal) : JVal :=
  match fields.lookup k with
  | some v => v
  | none => d

/-- `datetime.fromisoformat` applied to a JSON leaf: succeeds exactly
on ISO-timestamp strings; any other value raises `ValueError` or
`TypeError`, which `load_sets` catches. -/
def fromIso : JVal → Option Nat
  | .jts t => some t
  | _ => none

/-- The string elements of a JSON array (this model restricts market
and trade ids to strings, the only shape the program writes). -/
def strElems (l : List JVal) : List String :=
  l.filterMap (fun v => match v with | .jstr s => some s | _ => none)

/-- `StatePersistence.load_sets` (`utils/persistence.py` lines 24-56)
at wall-clock time `now`.  A missing file yields empty state; a file
that fails JSON parsing yields empty state plus a warning (the
`except (JSONDecodeError, IOError)` arm); a file whose JSON top level
is not an object makes `data.get` raise `AttributeError`, which nothing
catches (modelled as `Except.error ()`); otherwise `known_market_ids`
defaults to `[]`, `known_trade_ids` defaults to `{}`, a legacy plain
list of trade ids is migrated with first-seen time `now`, and dict
entries whose timestamp string fails `fromisoformat` also get `now`. -/
def loadSets (file : FileRead) (now : Nat) : Except Unit LoadState :=
  match file with
  | .missing => .ok ⟨[], [], false⟩
  | .badJson => .ok ⟨[], [], true⟩
  | .content v =>
    match v with
    | .jobj fields =>
      let marketIds :=
        match getField fields "known_market_ids" (.jarr []) with
        | .jarr l => strElems l
        | _ => []
      let tradeIds :=
        match getField fields "known_trade_ids" (.jobj []) with
        | .jarr l => (strElems l).map (fun tid => (tid, now))
        | .jobj entries => entries.map (fun p => (p.1, (fromIso p.2).getD now))
        | _ => []
      .ok ⟨marketIds, tradeIds, false⟩
    | _ => .error ()

/-- `StatePersistence.save` (`utils/persistence.py` lines 58-84): the
JSON object serialized to a temp file and atomically renamed over the
destination, so the state file only ever holds one complete
serialization. -/
def saveJson (marketIds : List String) (tradeIds : List (String × Nat))
    (now : Nat) : JVal :=
  .jobj [("known_market_ids", .jarr (marketIds.map .jstr)),
         ("known_trade_ids", .jobj (tradeIds.map (fun p => (p.1, .jts p.2)))),
         ("last_saved", .jts now)]

theorem strElems_map_jstr (l : List String) : strElems (l.map .jstr) = l := by
  induction l with
  | nil => rfl
  | cons x xs ih => simp [strElems, List.filterMap_cons] at ih ⊢; exact ih

theorem trades_roundtrip (l : List (String × Nat)) (now : Nat) :
    (l.map (fun p => (p.1, JVal.jts p.2))).map
      (fun p => (p.1, (fromIso p.2).getD now)) = l := by
  induction l with
  | nil => rfl
  | cons x xs ih => simp [fromIso] at ih ⊢; exact ih

/-- C9: `save` immediately followed by `load` with no intervening write
returns exactly the saved market-id set and trade-id map (and no
warning), for every state and any wall-clock times of the two calls. -/
theorem c9_save_load_roundtrip (marketIds : List String)
    (tradeIds : List (String × Nat)) (saveTime loadTime : Nat) :
    loadSets (.content (saveJson marketIds tradeIds saveTime)) loadTime =
      .ok ⟨marketIds, tradeIds, false⟩ := by
  have hk1 : ("known_market_ids" == "known_market_ids") = true := by decide
  have hk2 : ("known_trade_ids" == "known_market_ids") = false := by decide
  have hk3 : ("known_trade_ids" == "known_trade_ids") = true := by decide
  simp only [loadSets, saveJson, getField, List.lookup, hk1, hk2, hk3]
  rw [strElems_map_jstr, trades_roundtrip]

/-- C8 (amended): `load` returns empty state when the state file is
missing, and empty state plus a warning — without raising — when the
file's content fails JSON parsing; a legacy plain-list
`known_trade_ids` loads every listed trade id with first-seen time
equal to the current wall-clock time; but a file that parses as JSON
whose top level is not an object raises an uncaught `AttributeError`
at `data.get` instead of degrading to empty state. -/
theorem c8_load_sets (now : Nat) :
    loadSets .missing now = .ok ⟨[], [], false⟩ ∧
    loadSets .badJson now = .ok ⟨[], [], true⟩ ∧
    (∀ ms tids : List String,
      loadSets (.content (.jobj
        [("known_market_ids", .jarr (ms.map .jstr)),
         ("known_trade_ids", .jarr (tids.map .jstr))])) now =
        .ok ⟨ms, tids.map (fun t => (t, now)), false⟩) ∧
    (∀ v : JVal, (∀ fields, v ≠ .jobj fields) →
      loadSets (.content v) now = .error ()) := by
  refine ⟨rfl, rfl, fun ms tids => ?_, fun v hv => ?_⟩
  · have hk1 : ("known_market_ids" == "known_market_ids") = true := by decide
    have hk2 : ("known_trade_ids" == "known_market_ids") = false := by decide
    have hk3 : ("known_trade_ids" == "known_trade_ids") = true := by decide
    simp only [loadSets, getField, List.lookup, hk1, hk2, hk3]
    rw [strElems_map_jstr, strElems_map_jstr]
  · cases v with
    | jobj fields => exact absurd rfl (hv fields)
    | jnull => rfl
    | jstr s => rfl
    | jts t => rfl
    | jnum q => rfl
    | jarr l => rfl

/-- Witness for C8 at concrete inputs: a legacy-format file with market
ids `["a"]` and trade-id list `["t1", "t2"]` loaded at time `5` maps
both trade ids to `5`; and a file holding JSON `null` raises. -/
theorem c8_load_sets_witness :
    loadSets (.content (.jobj
      [("known_market_ids", .jarr [.jstr "a"]),
       ("known_trade_ids", .jarr [.jstr "t1", .jstr "t2"])])) 5 =
      .ok ⟨["a"], [("t1", 5), ("t2", 5)], false⟩ ∧
    loadSets (.content .jnull) 7 = .error () :=
  ⟨(c8_load_sets 5).2.2.1 ["a"] ["t1", "t2"],
   (c8_load_sets 7).2.2.2 .jnull (fun _ h => JVal.noConfusion h)⟩

/-- Counterexample to C8 as stated: a state file containing the valid
JSON text `[]` (an array, so `json.load` succeeds) is malformed as a
state file, yet `load_sets` does not return empty state with a warning:
`data.get` raises an uncaught `AttributeError`. -/
theorem c8_counterexample :
    loadSets (.content (.jarr [])) 0 = .error () ∧
    ∀ st : LoadState, loadSets (.content (.jarr [])) 0 ≠ .ok st := by
  refine ⟨rfl, fun st h => ?_⟩
  exact Except.noConfusion h

end Persist
